import Mathlib

/-!
# spmatch: `include/utils.hpp`

A shallow embedding of the `Grid<T>` container, of the constructor of
`RandomDevice` and of `logMsg` of `include/utils.hpp`, and theorems about them.

Conventions of the embedding.

* `size_t` values are natural numbers below `SIZE_MOD = 2 ^ 64`; every
  `size_t` product or sum computed by the source is reduced modulo `SIZE_MOD`.
* `std::vector<T>` is `List T`; `data.assign(n, val)` always succeeds and
  yields `n` copies of `val`.
* `data[k]` of the source is unchecked.  The embedding is total: an access
  outside the vector yields `none`.
* A `T&` returned by `operator()` is the index of the slot it refers to;
  `Grid.load` reads through it and `Grid.store` assigns through it.
* `std::ostream` is the string of the characters written to it so far.
* `params.hpp` is not part of the sources: `params.LOG` and
  `params.USE_PSEUDORAND` are arguments of the functions that read them.
-/

/-- Number of bits of `size_t` (LP64 target). -/
def SIZE_BITS : Nat := 64

/-- Modulus of `size_t` arithmetic: `SIZE_MAX + 1`. -/
def SIZE_MOD : Nat := 2 ^ SIZE_BITS

/-- The enumeration `Grid<T>::Order`. -/
inductive Order where
  | ROWS_COLS
  | WIDTH_HEIGHT
  deriving DecidableEq, Repr

/-- The members of `class Grid<T>`: `order`, `nRows`, `nCols`, `data`. -/
structure Grid (T : Type) where
  order : Order
  nRows : Nat
  nCols : Nat
  data : List T
  deriving Repr

namespace Grid

variable {T : Type}

/-- Method `bool Grid<T>::reorderArgs(size_t& i1, size_t& i2) const`: the result is
the returned flag together with the values of `i1` and `i2` after the call. -/
def reorderArgs (order : Order) (i1 i2 : Nat) : Bool × Nat × Nat :=
  if order = Order.WIDTH_HEIGHT then (true, i2, i1) else (false, i1, i2)

/-- Constructor `Grid<T>::Grid(size_t n1, size_t n2, Order order)`; `T()` is
`default`. -/
def ctor3 [Inhabited T] (n1 n2 : Nat) (order : Order) : Grid T :=
  let a := reorderArgs order n1 n2
  let nRows := a.2.1
  let nCols := a.2.2
  { order := order, nRows := nRows, nCols := nCols,
    data := List.replicate ((nRows * nCols) % SIZE_MOD) default }

/-- Constructor `Grid<T>::Grid(size_t n1, size_t n2, Order order, const T& val)`. -/
def ctor4 (n1 n2 : Nat) (order : Order) (val : T) : Grid T :=
  let a := reorderArgs order n1 n2
  let nRows := a.2.1
  let nCols := a.2.2
  { order := order, nRows := nRows, nCols := nCols,
    data := List.replicate ((nRows * nCols) % SIZE_MOD) val }

/-- Method `size_t size(void) const { return data.size(); }`. -/
def size (g : Grid T) : Nat := g.data.length

/-- Method `size_t rows(void) const { return nRows; }`. -/
def rows (g : Grid T) : Nat := g.nRows

/-- Method `size_t cols(void) const { return nCols; }`. -/
def cols (g : Grid T) : Nat := g.nCols

/-- Method `size_t width(void) const { return nCols; }`. -/
def width (g : Grid T) : Nat := g.nCols

/-- Method `size_t height(void) const { return nRows; }`. -/
def height (g : Grid T) : Nat := g.nRows

/-- Method `const T& Grid<T>::get(size_t i1, size_t i2) const`. -/
def get (g : Grid T) (i1 i2 : Nat) : Option T :=
  let a := reorderArgs g.order i1 i2
  g.data[(a.2.1 * g.nCols + a.2.2) % SIZE_MOD]?

/-- Operator `T& Grid<T>::operator()(size_t i1, size_t i2)`: the slot that the
returned reference refers to. -/
def operatorCall2 (g : Grid T) (i1 i2 : Nat) : Option Nat :=
  let a := reorderArgs g.order i1 i2
  let k := (a.2.1 * g.nCols + a.2.2) % SIZE_MOD
  if k < g.data.length then some k else none

/-- Operator `T& operator()(size_t i) { return data[i]; }`: the slot that the
returned reference refers to. -/
def operatorCall1 (g : Grid T) (i : Nat) : Option Nat :=
  if i < g.data.length then some i else none

/-- Reading through a reference to slot `k`. -/
def load (g : Grid T) (k : Nat) : Option T := g.data[k]?

/-- Assigning `v` through a reference to slot `k`. -/
def store (g : Grid T) (k : Nat) (v : T) : Grid T :=
  { g with data := g.data.set k v }

/-- The statement `g(i1, i2) = v;`. -/
def write2 (g : Grid T) (i1 i2 : Nat) (v : T) : Option (Grid T) :=
  (g.operatorCall2 i1 i2).map (fun k => g.store k v)

/-- The expression `g(i1, i2)` used as a value. -/
def read2 (g : Grid T) (i1 i2 : Nat) : Option T :=
  (g.operatorCall2 i1 i2).bind g.load

/-- The statement `g(i) = v;`. -/
def write1 (g : Grid T) (i : Nat) (v : T) : Option (Grid T) :=
  (g.operatorCall1 i).map (fun k => g.store k v)

/-- The expression `g(i)` used as a value. -/
def read1 (g : Grid T) (i : Nat) : Option T :=
  (g.operatorCall1 i).bind g.load

/-- Inner loop of `operator<<`: `for (size_t c = 0; c < nC; ++c)` of row `r`,
appending to the stream contents `o`; `sh` is `operator<<` of `T`. -/
def printCols (sh : T → String) (g : Grid T) (r nC : Nat) (o : String) :
    Option String :=
  (List.range nC).foldlM
    (fun o c => do
      let o1 := if c > 0 then o ++ ", " else o
      let x ← g.get r c
      pure (o1 ++ sh x))
    o

/-- Operator `std::ostream& operator<<(std::ostream& o, const Grid<T>& g)`: the
contents of the stream after the call, from contents `o` before it. -/
def operatorOut (sh : T → String) (o : String) (g : Grid T) : Option String :=
  let a := reorderArgs g.order g.nRows g.nCols
  let nR := a.2.1
  let nC := a.2.2
  (List.range nR).foldlM
    (fun o r => do
      let o1 ← printCols sh g r nC o
      pure (o1 ++ ";\n"))
    o

/-- Data-model invariant of a grid: the backing sequence has exactly
`nRows * nCols` elements, a number that is a `size_t` value.  Both constructors
establish it when the product of their two lengths is a `size_t` value
(`ctor3_inv`, `ctor4_inv`), and every write preserves it (`store_inv`), so
every grid of `Grid.WellConstructed` satisfies it. -/
def Inv (g : Grid T) : Prop :=
  g.data.length = g.nRows * g.nCols ∧ g.nRows * g.nCols < SIZE_MOD

instance (g : Grid T) : Decidable g.Inv := by
  unfold Inv; exact inferInstance

/-- The pair `(i1, i2)` is valid for `g`: after the swap of `reorderArgs`
the first index is below `nRows` and the second below `nCols`. -/
def Valid (g : Grid T) (i1 i2 : Nat) : Prop :=
  (reorderArgs g.order i1 i2).2.1 < g.nRows ∧
    (reorderArgs g.order i1 i2).2.2 < g.nCols

instance (g : Grid T) (i1 i2 : Nat) : Decidable (g.Valid i1 i2) := by
  unfold Valid; exact inferInstance

end Grid

/-- Stream output of an `int`: decimal digits, with a leading `-` when
negative. -/
def showInt (n : Int) : String := toString n

/-- The grid of the example scenario: `Grid<int> g(2, 3, ROWS_COLS, 0)`. -/
def exampleGrid0 : Grid Int := Grid.ctor4 2 3 Order.ROWS_COLS 0

/-- A raster grid: `Grid<int> g(2, 3, WIDTH_HEIGHT, 0)`, width 2, height 3. -/
def exampleGridWH : Grid Int := Grid.ctor4 2 3 Order.WIDTH_HEIGHT 0

/-- The example scenario after `g(0, 1) = 5;`. -/
def exampleGrid5 : Option (Grid Int) := exampleGrid0.write2 0 1 5

/-- The raster grid `exampleGridWH` after `g(k) = k + 1;` for `k = 0 .. 5`:
its backing sequence is `1, 2, 3, 4, 5, 6`. -/
def exampleGridWH6 : Option (Grid Int) := do
  let g0 ← exampleGridWH.write1 0 1
  let g1 ← g0.write1 1 2
  let g2 ← g1.write1 2 3
  let g3 ← g2.write1 3 4
  let g4 ← g3.write1 4 5
  g4.write1 5 6

/-- One line of the output format written by `operator<<`: the elements
joined by `", "`, followed by `";\n"`. -/
def renderLine {T : Type} (sh : T → String) (xs : List T) : String :=
  ", ".intercalate (xs.map sh) ++ ";\n"

/-- The lines `ls`, each in the format of `renderLine`, concatenated. -/
def renderLines {T : Type} (sh : T → String) (ls : List (List T)) : String :=
  String.join (ls.map (renderLine sh))

/-- The line format as the specification words it (sections 4.1 and 6): the
elements joined by `", "`, terminated by `"; "` followed by a newline. -/
def specRenderLine {T : Type} (sh : T → String) (xs : List T) : String :=
  ", ".intercalate (xs.map sh) ++ "; " ++ "\n"

/-- The lines `ls`, each in the format of `specRenderLine`, concatenated. -/
def specRenderLines {T : Type} (sh : T → String) (ls : List (List T)) : String :=
  String.join (ls.map (specRenderLine sh))

/-- Row-major reading of the backing sequence, as the specification words the
textual rendering: one line per internal row, line `r` listing the slots
`r * colCount + c` for `c = 0 .. colCount - 1`. -/
def rowMajorLines {T : Type} (g : Grid T) : Option (List (List T)) :=
  (List.range g.rows).mapM
    (fun r => (List.range g.cols).mapM (fun c => g.data[r * g.cols + c]?))

/-- The elements read by `operator<<`, in the order of the reads: for each
`r` below the first loop bound, `get(r, c)` for each `c` below the second. -/
def printedLines {T : Type} (g : Grid T) : Option (List (List T)) :=
  (List.range (Grid.reorderArgs g.order g.nRows g.nCols).2.1).mapM
    (fun r => (List.range (Grid.reorderArgs g.order g.nRows g.nCols).2.2).mapM
      (fun c => g.get r c))

/-- The shape of a grid constructed with `(n1, n2, order)`: its order is
`order` and its `nRows`, `nCols` are `n1`, `n2` after `reorderArgs`.  Writes
keep the shape. -/
def Grid.ConstructedWith {T : Type} (g : Grid T) (n1 n2 : Nat) (order : Order) : Prop :=
  g.order = order ∧ g.nRows = (Grid.reorderArgs order n1 n2).2.1 ∧
    g.nCols = (Grid.reorderArgs order n1 n2).2.2

instance {T : Type} (g : Grid T) (n1 n2 : Nat) (order : Order) :
    Decidable (g.ConstructedWith n1 n2 order) := by
  unfold Grid.ConstructedWith; exact inferInstance

/-- Standard output `std::cout`: the characters written to it so far and the
number of `std::flush` manipulators sent to it. -/
structure Cout where
  written : String
  flushes : Nat
  deriving DecidableEq, Repr

/-- Function `inline void logMsg(const string& message, int level, char end,
bool flush)`: the state of `std::cout` after the call.  The configuration
value `params.LOG` of `params.hpp` is the argument `LOG`. -/
def logMsg (LOG : Int) (message : String) (level : Int) (end_ : Char) (flush : Bool)
    (cout : Cout) : Cout :=
  if LOG ≥ level then
    if flush then
      { written := cout.written ++ message ++ String.singleton end_,
        flushes := cout.flushes + 1 }
    else
      { written := cout.written ++ message ++ String.singleton end_,
        flushes := cout.flushes }
  else
    cout

/-- The call `logMsg(message, level)` with the default arguments
`end = '\n'` and `flush = false`. -/
def logMsgDefault (LOG : Int) (message : String) (level : Int) (cout : Cout) : Cout :=
  logMsg LOG message level '\n' false cout

/-- The public member `engine` of `class RandomDevice`; `E` is the type of
the states of `std::default_random_engine`. -/
structure RandomDevice (E : Type) where
  engine : E

/-- Constructor `RandomDevice(void)`.  The member `engine` is
default-constructed to `defaultEngine`; `seed` is
`std::default_random_engine::seed`, `deviceValue` is the value that `device()`
yields when called, and `USE_PSEUDORAND` is `params.USE_PSEUDORAND`. -/
def RandomDevice.ctor {E : Type} (USE_PSEUDORAND : Bool) (defaultEngine : E)
    (seed : E → Nat → E) (deviceValue : Nat) : RandomDevice E :=
  if !USE_PSEUDORAND then
    { engine := seed defaultEngine deviceValue }
  else
    { engine := defaultEngine }

/-- The first `n` raw outputs drawn from an engine in state `e`; `next` is
`operator()` of the engine: the value drawn and the state after the draw. -/
def drawSequence {E : Type} (next : E → Nat × E) : Nat → E → List Nat
  | 0, _ => []
  | n + 1, e => (next e).1 :: drawSequence next n (next e).2

/-- Grids produced by a constructor call whose requested number of elements
`n1 * n2` is a `size_t` value, followed by any number of writes through the
mutable accessors. -/
inductive Grid.WellConstructed {T : Type} : Grid T → Prop where
  | ctor3 [Inhabited T] (n1 n2 : Nat) (order : Order) (hfit : n1 * n2 < SIZE_MOD) :
      Grid.WellConstructed (Grid.ctor3 n1 n2 order)
  | ctor4 (n1 n2 : Nat) (order : Order) (val : T) (hfit : n1 * n2 < SIZE_MOD) :
      Grid.WellConstructed (Grid.ctor4 n1 n2 order val)
  | write2 (g g' : Grid T) (i1 i2 : Nat) (v : T) (hg : Grid.WellConstructed g)
      (hw : g.write2 i1 i2 v = some g') : Grid.WellConstructed g'
  | write1 (g g' : Grid T) (i : Nat) (v : T) (hg : Grid.WellConstructed g)
      (hw : g.write1 i v = some g') : Grid.WellConstructed g'

/-- The grid `Grid<int> g(2 ^ 32, 2 ^ 32, ROWS_COLS, 7)`: the `size_t` product
`nRows * nCols` wraps to 0, so its backing sequence is empty. -/
def wrappedGridEmpty : Grid Int := Grid.ctor4 4294967296 4294967296 Order.ROWS_COLS 7

/-- The grid `Grid<int> g(2 ^ 63 + 1, 2, ROWS_COLS, 7)`: the `size_t` product
`nRows * nCols` wraps to 2, so its backing sequence is `7, 7`. -/
def wrappedGridPair : Grid Int := Grid.ctor4 9223372036854775809 2 Order.ROWS_COLS 7


theorem intercalate_go_snoc (sep : String) (xs : List String) (acc x : String) :
    String.intercalate.go acc sep (xs ++ [x]) = String.intercalate.go acc sep xs ++ sep ++ x := by
  induction xs generalizing acc with
  | nil => simp [String.intercalate.go]
  | cons y ys ih => simp [String.intercalate.go, ih]

theorem intercalate_snoc (sep : String) (xs : List String) (x : String) :
    sep.intercalate (xs ++ [x]) =
      (if xs = [] then x else sep.intercalate xs ++ sep ++ x) := by
  cases xs with
  | nil => simp [String.intercalate, String.intercalate.go]
  | cons y ys => simp [String.intercalate, intercalate_go_snoc]

theorem join_snoc (xs : List String) (x : String) :
    String.join (xs ++ [x]) = String.join xs ++ x := by
  simp [String.join, List.foldl_append]

theorem mapM_some_length {α β : Type} (f : α → Option β) (l : List α) (xs : List β)
    (h : l.mapM f = some xs) : xs.length = l.length := by
  induction l generalizing xs with
  | nil =>
    rw [List.mapM_nil] at h
    cases h; rfl
  | cons a as ih =>
    rw [List.mapM_cons] at h
    cases hfa : f a with
    | none => rw [hfa] at h; cases h
    | some b =>
      cases hr : as.mapM f with
      | none => rw [hfa, hr] at h; cases h
      | some ys =>
        rw [hfa, hr] at h
        simp at h
        subst h
        simp [ih ys hr]

/-- A traversal whose every step succeeds with `h a` yields `l.map h`. -/
theorem mapM_eq_some_map {α β : Type} (f : α → Option β) (h : α → β) (l : List α)
    (hf : ∀ a ∈ l, f a = some (h a)) : l.mapM f = some (l.map h) := by
  induction l with
  | nil => rfl
  | cons a as ih =>
    rw [List.mapM_cons, hf a (List.mem_cons_self a as),
      ih (fun b hb => hf b (List.mem_cons_of_mem a hb))]
    rfl

/-- Traversals by functions that agree on the list agree. -/
theorem mapM_congr_mem {α β : Type} (f f' : α → Option β) (l : List α)
    (hf : ∀ a ∈ l, f a = f' a) : l.mapM f = l.mapM f' := by
  induction l with
  | nil => rfl
  | cons a as ih =>
    rw [List.mapM_cons, List.mapM_cons, hf a (List.mem_cons_self a as),
      ih (fun b hb => hf b (List.mem_cons_of_mem a hb))]

/-- Reading `n` consecutive slots from `off` yields that segment of the list. -/
theorem mapM_getElem_segment {α : Type} (l : List α) (off n : Nat)
    (h : off + n ≤ l.length) :
    (List.range n).mapM (fun c => l[off + c]?) = some ((l.drop off).take n) := by
  induction n with
  | zero => rfl
  | succ n ih =>
    rw [List.range_succ, List.mapM_append, ih (by omega), List.mapM_cons, List.mapM_nil,
      List.take_succ, List.getElem?_drop]
    have hlt : off + n < l.length := by omega
    rw [List.getElem?_eq_getElem hlt]
    rfl

/-- The segments of length `C` of a list, in order, concatenate to its first `R * C` elements. -/
theorem join_segments {α : Type} (l : List α) (C R : Nat) :
    ((List.range R).map (fun r => (l.drop (r * C)).take C)).flatten = l.take (R * C) := by
  induction R with
  | zero => simp
  | succ R ih =>
    rw [List.range_succ, List.map_append, List.flatten_append, ih]
    simp only [List.map_cons, List.map_nil, List.flatten_cons, List.flatten_nil,
      List.append_nil]
    rw [Nat.succ_mul, List.take_add]

/-- A traversal whose every step succeeds succeeds, with one result per
element. -/
theorem mapM_some_of_forall {α β : Type} (f : α → Option β) (l : List α)
    (hf : ∀ a ∈ l, ∃ b, f a = some b) : ∃ ys, l.mapM f = some ys ∧ ys.length = l.length := by
  induction l with
  | nil => exact ⟨[], rfl, rfl⟩
  | cons a as ih =>
    obtain ⟨b, hb⟩ := hf a (List.mem_cons_self a as)
    obtain ⟨ys, hys, hlen⟩ := ih (fun c hc => hf c (List.mem_cons_of_mem a hc))
    refine ⟨b :: ys, ?_, by simp [hlen]⟩
    rw [List.mapM_cons, hb, hys]
    rfl

/-- Every result of a successful traversal comes from an element of the
list. -/
theorem mapM_some_mem {α β : Type} (f : α → Option β) (l : List α) (ys : List β)
    (h : l.mapM f = some ys) : ∀ y ∈ ys, ∃ a ∈ l, f a = some y := by
  induction l generalizing ys with
  | nil =>
    rw [List.mapM_nil] at h
    cases h
    intro y hy
    cases hy
  | cons a as ih =>
    rw [List.mapM_cons] at h
    cases hfa : f a with
    | none => rw [hfa] at h; cases h
    | some b =>
      cases hr : as.mapM f with
      | none => rw [hfa, hr] at h; cases h
      | some zs =>
        rw [hfa, hr] at h
        simp at h
        subst h
        intro y hy
        rcases List.mem_cons.mp hy with rfl | hy
        · exact ⟨a, List.mem_cons_self a as, hfa⟩
        · obtain ⟨a', ha', hfa'⟩ := ih zs hr y hy
          exact ⟨a', List.mem_cons_of_mem a ha', hfa'⟩

/-- A traversal of `0, 1, ..., n - 1` whose first step fails fails. -/
theorem mapM_range_none {β : Type} (f : Nat → Option β) (n : Nat) (hn : 0 < n)
    (h0 : f 0 = none) : (List.range n).mapM f = none := by
  obtain ⟨m, rfl⟩ := Nat.exists_eq_succ_of_ne_zero (Nat.pos_iff_ne_zero.mp hn)
  rw [List.range_succ_eq_map, List.mapM_cons, h0]
  rfl

namespace Grid
variable {T : Type}

theorem reorderArgs_rows_cols (i1 i2 : Nat) :
    reorderArgs Order.ROWS_COLS i1 i2 = (false, i1, i2) := by
  simp [reorderArgs]

theorem reorderArgs_width_height (i1 i2 : Nat) :
    reorderArgs Order.WIDTH_HEIGHT i1 i2 = (true, i2, i1) := by
  simp [reorderArgs]

/-- A valid internal pair lies strictly below the number of slots. -/
theorem slot_lt {R C r c : Nat} (hr : r < R) (hc : c < C) : r * C + c < R * C := by
  calc r * C + c < r * C + C := by omega
    _ = (r + 1) * C := by ring
    _ ≤ R * C := Nat.mul_le_mul_right C hr

/-- The row-major slot of a pair determines the pair. -/
theorem slot_inj {C r c r' c' : Nat} (hc : c < C) (hc' : c' < C)
    (h : r * C + c = r' * C + c') : r = r' ∧ c = c' := by
  have hC : 0 < C := by omega
  have h1 : (r * C + c) / C = r := by
    rw [Nat.add_comm, Nat.add_mul_div_right _ _ hC, Nat.div_eq_of_lt hc, Nat.zero_add]
  have h2 : (r' * C + c') / C = r' := by
    rw [Nat.add_comm, Nat.add_mul_div_right _ _ hC, Nat.div_eq_of_lt hc', Nat.zero_add]
  have hr : r = r' := by rw [← h1, ← h2, h]
  subst hr
  exact ⟨rfl, by omega⟩

/-- Under the invariant, the offset computed for a valid pair is not reduced
by the `size_t` wrap-around and is below `size()`. -/
theorem offset_of_valid (g : Grid T) (i1 i2 : Nat) (hinv : g.Inv) (hv : g.Valid i1 i2) :
    ((reorderArgs g.order i1 i2).2.1 * g.nCols + (reorderArgs g.order i1 i2).2.2) % SIZE_MOD
        = (reorderArgs g.order i1 i2).2.1 * g.nCols + (reorderArgs g.order i1 i2).2.2 ∧
      (reorderArgs g.order i1 i2).2.1 * g.nCols + (reorderArgs g.order i1 i2).2.2
        < g.data.length := by
  obtain ⟨hlen, hsz⟩ := hinv
  obtain ⟨h1, h2⟩ := hv
  have hlt := slot_lt h1 h2
  exact ⟨Nat.mod_eq_of_lt (by omega), by omega⟩

theorem store_inv (g : Grid T) (k : Nat) (v : T) (hinv : g.Inv) : (g.store k v).Inv := by
  simpa [Inv, store] using hinv

/-- Distinct valid pairs of one grid have distinct internal offsets. -/
theorem offset_ne_of_ne (g : Grid T) (i1 i2 j1 j2 : Nat)
    (hi : g.Valid i1 i2) (hj : g.Valid j1 j2) (hne : (i1, i2) ≠ (j1, j2)) :
    (reorderArgs g.order i1 i2).2.1 * g.nCols + (reorderArgs g.order i1 i2).2.2 ≠
      (reorderArgs g.order j1 j2).2.1 * g.nCols + (reorderArgs g.order j1 j2).2.2 := by
  intro h
  obtain ⟨h1, h2⟩ := slot_inj hi.2 hj.2 h
  apply hne
  cases ho : g.order <;> simp [reorderArgs, ho] at h1 h2 <;> simp [h1, h2]

/-- The inner loop of `operator<<` writes the elements read by `get`, joined
by `", "`, and is undefined exactly when one of the reads is. -/
theorem printCols_eq (sh : T → String) (g : Grid T) (r nC : Nat) (o : String) :
    printCols sh g r nC o =
      ((List.range nC).mapM (fun c => g.get r c)).map
        (fun xs => o ++ ", ".intercalate (xs.map sh)) := by
  unfold printCols
  induction nC with
  | zero =>
    rw [List.range_zero, List.foldlM_nil, List.mapM_nil]
    simp [String.intercalate]
  | succ n ih =>
    rw [List.range_succ, List.foldlM_append, ih, List.mapM_append]
    cases hxs : (List.range n).mapM (fun c => g.get r c) with
    | none => rfl
    | some xs =>
      have hlen := mapM_some_length _ _ _ hxs
      rw [List.mapM_cons, List.mapM_nil]
      cases hx : g.get r n with
      | none => simp [hx]
      | some x =>
        simp only [List.length_range] at hlen
        simp [hx, intercalate_snoc]
        rcases Nat.eq_zero_or_pos n with hn | hn
        · have hnil : xs = [] := List.length_eq_zero.mp (by omega)
          subst hnil
          simp [hn, String.intercalate]
        · have hne : xs ≠ [] := by
            intro h0
            rw [h0] at hlen
            simp at hlen
            omega
          simp [hn, hne, String.append_assoc]

/-- The stream after `operator<<` is the stream before it followed by the
lines of `printedLines`, each in the format of `renderLine`. -/
theorem operatorOut_eq (sh : T → String) (o : String) (g : Grid T) :
    operatorOut sh o g = (printedLines g).map (fun ls => o ++ renderLines sh ls) := by
  unfold operatorOut printedLines
  simp only []
  generalize (reorderArgs g.order g.nRows g.nCols).2.1 = nR
  generalize (reorderArgs g.order g.nRows g.nCols).2.2 = nC
  induction nR with
  | zero =>
    rw [List.range_zero, List.foldlM_nil, List.mapM_nil]
    simp [renderLines, String.join]
  | succ n ih =>
    rw [List.range_succ, List.foldlM_append, ih, List.mapM_append]
    cases hls : (List.range n).mapM
        (fun r => (List.range nC).mapM (fun c => g.get r c)) with
    | none => rfl
    | some ls =>
      rw [List.mapM_cons, List.mapM_nil]
      cases hl : (List.range nC).mapM (fun c => g.get n c) with
      | none =>
        simp only [Option.map_some', Option.bind_eq_bind, Option.some_bind, List.foldlM_cons,
          List.foldlM_nil, printCols_eq, hl]
        rfl
      | some l =>
        simp only [Option.map_some', Option.bind_eq_bind, Option.some_bind, List.foldlM_cons,
          List.foldlM_nil, printCols_eq, hl]
        simp [renderLines, join_snoc, renderLine, String.append_assoc]

/-- Under the invariant, `get` at a valid pair reads the slot
`row * nCols + col` of the internal pair, which exists. -/
theorem get_of_valid (g : Grid T) (i1 i2 : Nat) (hinv : g.Inv) (hv : g.Valid i1 i2) :
    g.get i1 i2 =
      g.data[(reorderArgs g.order i1 i2).2.1 * g.nCols + (reorderArgs g.order i1 i2).2.2]? ∧
    (g.get i1 i2).isSome = true := by
  obtain ⟨hmod, hlt⟩ := offset_of_valid g i1 i2 hinv hv
  constructor
  · simp [get, hmod]
  · simp [get, hmod, hlt]

/-- Every pair visited by the loops of `operator<<` is valid. -/
theorem valid_of_loop (g : Grid T) (r c : Nat)
    (hr : r < (reorderArgs g.order g.nRows g.nCols).2.1)
    (hc : c < (reorderArgs g.order g.nRows g.nCols).2.2) : g.Valid r c := by
  unfold Valid
  cases ho : g.order <;> simp [reorderArgs, ho] at hr hc ⊢ <;> omega

/-- Under the invariant, a row-major grid prints the segments of its backing
sequence. -/
theorem printedLines_rows_cols (g : Grid T) (hinv : g.Inv) (ho : g.order = Order.ROWS_COLS) :
    printedLines g = rowMajorLines g ∧
    rowMajorLines g =
      some ((List.range g.nRows).map (fun r => (g.data.drop (r * g.nCols)).take g.nCols)) := by
  have hseg : rowMajorLines g =
      some ((List.range g.nRows).map (fun r => (g.data.drop (r * g.nCols)).take g.nCols)) := by
    unfold rowMajorLines rows cols
    apply mapM_eq_some_map
    intro r hr
    rw [List.mem_range] at hr
    apply mapM_getElem_segment
    have := Nat.mul_le_mul_right g.nCols (Nat.succ_le_of_lt hr)
    rw [hinv.1]
    calc r * g.nCols + g.nCols = (r + 1) * g.nCols := by ring
      _ ≤ g.nRows * g.nCols := this
  refine ⟨?_, hseg⟩
  unfold printedLines rowMajorLines rows cols
  simp only [ho, reorderArgs_rows_cols]
  apply mapM_congr_mem
  intro r hr
  apply mapM_congr_mem
  intro c hc
  rw [List.mem_range] at hr hc
  have hv : g.Valid r c := by simp [Valid, ho, reorderArgs_rows_cols, hr, hc]
  have := (get_of_valid g r c hinv hv).1
  simpa [ho, reorderArgs_rows_cols] using this

/-- Under the invariant every read of `operator<<` is defined: the printed
lines exist, one per value of the outer loop variable. -/
theorem printedLines_some (g : Grid T) (hinv : g.Inv) :
    ∃ ls, printedLines g = some ls ∧
      ls.length = (reorderArgs g.order g.nRows g.nCols).2.1 := by
  have h := mapM_some_of_forall
    (fun r => (List.range (reorderArgs g.order g.nRows g.nCols).2.2).mapM
      (fun c => g.get r c))
    (List.range (reorderArgs g.order g.nRows g.nCols).2.1) (by
      intro r hr
      rw [List.mem_range] at hr
      obtain ⟨xs, hxs, _⟩ := mapM_some_of_forall (fun c => g.get r c)
        (List.range (reorderArgs g.order g.nRows g.nCols).2.2) (by
          intro c hc
          rw [List.mem_range] at hc
          have hv := valid_of_loop g r c hr hc
          exact Option.isSome_iff_exists.mp (get_of_valid g r c hinv hv).2)
      exact ⟨xs, hxs⟩)
  obtain ⟨ls, hls, hlen⟩ := h
  exact ⟨ls, hls, by simpa using hlen⟩

/-- The four-argument constructor establishes the invariant when the
requested number of elements is a `size_t` value. -/
theorem ctor4_inv (n1 n2 : Nat) (order : Order) (val : T) (hfit : n1 * n2 < SIZE_MOD) :
    (ctor4 n1 n2 order val).Inv := by
  have hfit' : n2 * n1 < SIZE_MOD := by rw [Nat.mul_comm]; exact hfit
  cases order <;>
    simp [Inv, ctor4, reorderArgs, Nat.mod_eq_of_lt hfit, Nat.mod_eq_of_lt hfit', hfit, hfit']

/-- The three-argument constructor establishes the invariant when the
requested number of elements is a `size_t` value. -/
theorem ctor3_inv [Inhabited T] (n1 n2 : Nat) (order : Order) (hfit : n1 * n2 < SIZE_MOD) :
    (ctor3 n1 n2 order : Grid T).Inv :=
  ctor4_inv n1 n2 order default hfit

/-- A write through the two-argument accessor preserves the invariant. -/
theorem write2_inv (g g' : Grid T) (i1 i2 : Nat) (v : T) (hinv : g.Inv)
    (hw : g.write2 i1 i2 v = some g') : g'.Inv := by
  unfold write2 at hw
  cases hk : g.operatorCall2 i1 i2 with
  | none => rw [hk] at hw; cases hw
  | some k =>
    rw [hk] at hw
    cases hw
    exact store_inv g k v hinv

/-- A write through the flat accessor preserves the invariant. -/
theorem write1_inv (g g' : Grid T) (i : Nat) (v : T) (hinv : g.Inv)
    (hw : g.write1 i v = some g') : g'.Inv := by
  unfold write1 at hw
  cases hk : g.operatorCall1 i with
  | none => rw [hk] at hw; cases hw
  | some k =>
    rw [hk] at hw
    cases hw
    exact store_inv g k v hinv

/-- The loop bounds of `operator<<` on a grid constructed with
`(n1, n2, order)` are `n1` and `n2`. -/
theorem loop_bounds_of_constructedWith (g : Grid T) (n1 n2 : Nat) (order : Order)
    (hs : g.ConstructedWith n1 n2 order) :
    (reorderArgs g.order g.nRows g.nCols).2.1 = n1 ∧
      (reorderArgs g.order g.nRows g.nCols).2.2 = n2 := by
  obtain ⟨ho, hr, hc⟩ := hs
  rw [ho, hr, hc]
  cases order <;> simp [reorderArgs]

/-- A well-constructed grid satisfies the data-model invariant. -/
theorem inv_of_wellConstructed (g : Grid T) (hg : g.WellConstructed) : g.Inv := by
  induction hg with
  | ctor3 n1 n2 order hfit => exact ctor3_inv n1 n2 order hfit
  | ctor4 n1 n2 order val hfit => exact ctor4_inv n1 n2 order val hfit
  | write2 g g' i1 i2 v _ hw ih => exact write2_inv g g' i1 i2 v ih hw
  | write1 g g' i v _ hw ih => exact write1_inv g g' i v ih hw

/-- When both loop bounds of `operator<<` are positive and the first read
`get(0, 0)` is outside the backing sequence, the rendering is undefined. -/
theorem operatorOut_none_of_first_read (sh : T → String) (o : String) (g : Grid T)
    (h1 : 0 < (reorderArgs g.order g.nRows g.nCols).2.1)
    (h2 : 0 < (reorderArgs g.order g.nRows g.nCols).2.2)
    (h0 : g.get 0 0 = none) : operatorOut sh o g = none := by
  rw [operatorOut_eq]
  have hp : printedLines g = none := by
    unfold printedLines
    apply mapM_range_none _ _ h1
    exact mapM_range_none _ _ h2 h0
  rw [hp]
  rfl

end Grid

/-- Counterexample to C1 as stated: in `Grid<int> g(2 ^ 32, 2 ^ 32, ROWS_COLS,
7)` the pair `(0, 0)` is valid (`0 < rows()` and `0 < cols()`), but the
backing sequence is empty: the mutable accessor at `(0, 0)` refers to no slot,
so no value written there is read back by `get(0, 0)`. -/
theorem Grid.write2_valid_outside :
    wrappedGridEmpty.Valid 0 0 ∧ wrappedGridEmpty.size = 0 ∧
    wrappedGridEmpty.operatorCall2 0 0 = none ∧
    (wrappedGridEmpty.write2 0 0 5).isNone = true ∧
    (wrappedGridEmpty.write2 0 0 5).bind (fun g => g.get 0 0) ≠ some 5 := by
  decide

/-- C1 (amended). Get/set symmetry: for every grid of either order that was
constructed with `n1 * n2 < 2 ^ 64` (and then written any number of times) and
every pair `(i1, i2)` valid under its convention, writing `v` through the
mutable two-argument accessor at `(i1, i2)` succeeds, and `get(i1, i2)` on the
resulting grid returns `v`. -/
theorem Grid.get_after_write2 {T : Type} (g : Grid T) (i1 i2 : Nat) (v : T)
    (hg : g.WellConstructed) (hv : g.Valid i1 i2) :
    ∃ g', g.write2 i1 i2 v = some g' ∧ g'.get i1 i2 = some v := by
  have hinv := Grid.inv_of_wellConstructed g hg
  obtain ⟨hmod, hlt⟩ := Grid.offset_of_valid g i1 i2 hinv hv
  refine ⟨g.store ((Grid.reorderArgs g.order i1 i2).2.1 * g.nCols +
    (Grid.reorderArgs g.order i1 i2).2.2) v, ?_, ?_⟩
  · simp [Grid.write2, Grid.operatorCall2, hmod, hlt]
  · simp [Grid.get, Grid.store, hmod, hlt]

/-- Instance of C1 (amended) on the `WIDTH_HEIGHT` grid of width 2 and
height 3, at `(1, 2)`. -/
theorem Grid.get_after_write2_witness :
    exampleGridWH.WellConstructed ∧ exampleGridWH.Valid 1 2 ∧
      ∃ g', exampleGridWH.write2 1 2 5 = some g' ∧ g'.get 1 2 = some 5 :=
  ⟨Grid.WellConstructed.ctor4 2 3 Order.WIDTH_HEIGHT 0 (by decide), by decide,
    Grid.get_after_write2 exampleGridWH 1 2 5
      (Grid.WellConstructed.ctor4 2 3 Order.WIDTH_HEIGHT 0 (by decide)) (by decide)⟩

/-- Counterexample to C2 as stated: in `Grid<int> g(2 ^ 63 + 1, 2, ROWS_COLS,
7)`, whose backing sequence is `7, 7`, the distinct valid pairs `(0, 1)` and
`(2 ^ 63, 1)` both resolve to slot 1, so writing 5 at `(0, 1)` changes
`get(2 ^ 63, 1)` from 7 to 5. -/
theorem Grid.write2_changes_other_valid_pair :
    wrappedGridPair.data = [7, 7] ∧
    wrappedGridPair.Valid 0 1 ∧ wrappedGridPair.Valid 9223372036854775808 1 ∧
    ((0, 1) : Nat × Nat) ≠ (9223372036854775808, 1) ∧
    wrappedGridPair.operatorCall2 0 1 = some 1 ∧
    wrappedGridPair.operatorCall2 9223372036854775808 1 = some 1 ∧
    wrappedGridPair.get 9223372036854775808 1 = some 7 ∧
    (wrappedGridPair.write2 0 1 5).bind (fun g => g.get 9223372036854775808 1) = some 5 := by
  decide

/-- C2 (amended). Frame of a write: for every grid of either order that was
constructed with `n1 * n2 < 2 ^ 64` (and then written any number of times) and
every two valid pairs `(i1, i2) != (j1, j2)`, writing through the mutable
two-argument accessor at `(i1, i2)` leaves `get(j1, j2)` unchanged, and leaves
`size()`, `rows()`, `cols()` and the order unchanged, so that the backing
sequence still has `rowCount * colCount` elements.  In the example scenario,
`Grid<int> g(2, 3, ROWS_COLS, 0)` with 5 written at `(0, 1)` has size 6,
`get(0, 1) == 5`, and every other slot is 0. -/
theorem Grid.write2_frame :
    (∀ (T : Type) (g : Grid T) (i1 i2 j1 j2 : Nat) (v : T),
      g.WellConstructed → g.Valid i1 i2 → g.Valid j1 j2 → (i1, i2) ≠ (j1, j2) →
      ∃ g', g.write2 i1 i2 v = some g' ∧ g'.get j1 j2 = g.get j1 j2 ∧
        g'.size = g.size ∧ g'.rows = g.rows ∧ g'.cols = g.cols ∧
        g'.order = g.order ∧ g'.data.length = g'.rows * g'.cols) ∧
    (∃ g', exampleGrid0.write2 0 1 5 = some g' ∧ g'.size = 6 ∧
      g'.get 0 1 = some 5 ∧
      (∀ j1 j2, g'.Valid j1 j2 → (j1, j2) ≠ (0, 1) → g'.get j1 j2 = some 0) ∧
      g'.data = [0, 5, 0, 0, 0, 0]) := by
  constructor
  · intro T g i1 i2 j1 j2 v hg hi hj hne
    have hinv := Grid.inv_of_wellConstructed g hg
    obtain ⟨hmod, hlt⟩ := Grid.offset_of_valid g i1 i2 hinv hi
    obtain ⟨hmodj, _⟩ := Grid.offset_of_valid g j1 j2 hinv hj
    have hoff := Grid.offset_ne_of_ne g i1 i2 j1 j2 hi hj hne
    refine ⟨g.store ((Grid.reorderArgs g.order i1 i2).2.1 * g.nCols +
      (Grid.reorderArgs g.order i1 i2).2.2) v, ?_, ?_, ?_, rfl, rfl, rfl, ?_⟩
    · simp [Grid.write2, Grid.operatorCall2, hmod, hlt]
    · simp only [Grid.get, Grid.store, hmodj]
      exact List.getElem?_set_ne hoff
    · simp [Grid.size, Grid.store]
    · simpa [Grid.store, Grid.rows, Grid.cols] using hinv.1
  · refine ⟨exampleGrid0.store 1 5, rfl, by decide, by decide, ?_, by decide⟩
    intro j1 j2 hv hne
    obtain ⟨h1, h2⟩ := hv
    simp [Grid.reorderArgs, exampleGrid0, Grid.store, Grid.ctor4] at h1 h2
    have hj1 : j1 = 0 ∨ j1 = 1 := by omega
    have hj2 : j2 = 0 ∨ j2 = 1 ∨ j2 = 2 := by omega
    rcases hj1 with rfl | rfl <;> rcases hj2 with rfl | rfl | rfl <;>
      first | exact absurd rfl hne | decide

/-- Instance of C2 (amended) on the raster grid of width 2 and height 3:
writing at `(1, 2)` leaves `(0, 2)` and the dimensions unchanged. -/
theorem Grid.write2_frame_witness :
    exampleGridWH.WellConstructed ∧ exampleGridWH.Valid 1 2 ∧ exampleGridWH.Valid 0 2 ∧
      ((1, 2) : Nat × Nat) ≠ (0, 2) ∧
      ∃ g', exampleGridWH.write2 1 2 7 = some g' ∧ g'.get 0 2 = exampleGridWH.get 0 2 ∧
        g'.size = exampleGridWH.size ∧ g'.rows = exampleGridWH.rows ∧
        g'.cols = exampleGridWH.cols ∧ g'.order = exampleGridWH.order ∧
        g'.data.length = g'.rows * g'.cols :=
  ⟨Grid.WellConstructed.ctor4 2 3 Order.WIDTH_HEIGHT 0 (by decide), by decide, by decide,
    by decide,
    Grid.write2_frame.1 Int exampleGridWH 1 2 0 2 7
      (Grid.WellConstructed.ctor4 2 3 Order.WIDTH_HEIGHT 0 (by decide)) (by decide)
      (by decide) (by decide)⟩

/-- Counterexample to C3 as stated: with `rowCount = colCount = 2 ^ 32` the
`size_t` product `nRows * nCols` wraps to 0, so the constructed grid has
`rows() == 2 ^ 32` and `cols() == 2 ^ 32` but `size() == 0`. -/
theorem Grid.ctor3_rows_cols_size_wraps :
    (Grid.ctor3 4294967296 4294967296 Order.ROWS_COLS : Grid Int).rows = 4294967296 ∧
    (Grid.ctor3 4294967296 4294967296 Order.ROWS_COLS : Grid Int).cols = 4294967296 ∧
    (Grid.ctor3 4294967296 4294967296 Order.ROWS_COLS : Grid Int).size = 0 ∧
    (Grid.ctor3 4294967296 4294967296 Order.ROWS_COLS : Grid Int).size
      ≠ 4294967296 * 4294967296 := by
  decide

/-- C3 (amended). For every `rowCount` and `colCount` (zero included), the
grid constructed with `(rowCount, colCount, ROWS_COLS)` has
`rows() == rowCount` and `cols() == colCount`, and it has
`size() == rowCount * colCount` when that product is a `size_t` value
(`rowCount * colCount < 2 ^ 64`). -/
theorem Grid.ctor3_rows_cols_dims {T : Type} [Inhabited T] (rowCount colCount : Nat) :
    (Grid.ctor3 rowCount colCount Order.ROWS_COLS : Grid T).rows = rowCount ∧
    (Grid.ctor3 rowCount colCount Order.ROWS_COLS : Grid T).cols = colCount ∧
    (rowCount * colCount < SIZE_MOD →
      (Grid.ctor3 rowCount colCount Order.ROWS_COLS : Grid T).size = rowCount * colCount) := by
  refine ⟨?_, ?_, ?_⟩
  · simp [Grid.ctor3, Grid.rows, Grid.reorderArgs]
  · simp [Grid.ctor3, Grid.cols, Grid.reorderArgs]
  · intro hfit
    simp [Grid.ctor3, Grid.size, Grid.reorderArgs, Nat.mod_eq_of_lt hfit]

/-- Instance of C3 (amended) with two rows and three columns: six elements. -/
theorem Grid.ctor3_rows_cols_dims_witness :
    2 * 3 < SIZE_MOD ∧
    (Grid.ctor3 2 3 Order.ROWS_COLS : Grid Int).size = 2 * 3 ∧
    (Grid.ctor3 2 3 Order.ROWS_COLS : Grid Int).data = [0, 0, 0, 0, 0, 0] :=
  ⟨by decide, (Grid.ctor3_rows_cols_dims 2 3).2.2 (by decide), by decide⟩

/-- Counterexample to C4 as stated: with `w = h = 2 ^ 32` the `size_t`
product wraps to 0, so the grid has `width() == 2 ^ 32` and
`height() == 2 ^ 32` but `size() == 0`. -/
theorem Grid.ctor_width_height_size_wraps :
    (Grid.ctor4 4294967296 4294967296 Order.WIDTH_HEIGHT (0 : Int)).width = 4294967296 ∧
    (Grid.ctor4 4294967296 4294967296 Order.WIDTH_HEIGHT (0 : Int)).height = 4294967296 ∧
    (Grid.ctor4 4294967296 4294967296 Order.WIDTH_HEIGHT (0 : Int)).size = 0 ∧
    (Grid.ctor3 4294967296 4294967296 Order.WIDTH_HEIGHT : Grid Int).size = 0 ∧
    (Grid.ctor4 4294967296 4294967296 Order.WIDTH_HEIGHT (0 : Int)).size
      ≠ 4294967296 * 4294967296 := by
  decide

/-- C4 (amended). For every `w` and `h` (zero included), the grid constructed
with `(w, h, WIDTH_HEIGHT)`, by either constructor, has `width() == w`,
`height() == h`, `rows() == h` and `cols() == w`, and it has
`size() == w * h` when that product is a `size_t` value (`w * h < 2 ^ 64`). -/
theorem Grid.ctor_width_height_dims {T : Type} [Inhabited T] (w h : Nat) (val : T) :
    ((Grid.ctor3 w h Order.WIDTH_HEIGHT : Grid T).width = w ∧
      (Grid.ctor3 w h Order.WIDTH_HEIGHT : Grid T).height = h ∧
      (Grid.ctor3 w h Order.WIDTH_HEIGHT : Grid T).rows = h ∧
      (Grid.ctor3 w h Order.WIDTH_HEIGHT : Grid T).cols = w ∧
      (w * h < SIZE_MOD → (Grid.ctor3 w h Order.WIDTH_HEIGHT : Grid T).size = w * h)) ∧
    ((Grid.ctor4 w h Order.WIDTH_HEIGHT val).width = w ∧
      (Grid.ctor4 w h Order.WIDTH_HEIGHT val).height = h ∧
      (Grid.ctor4 w h Order.WIDTH_HEIGHT val).rows = h ∧
      (Grid.ctor4 w h Order.WIDTH_HEIGHT val).cols = w ∧
      (w * h < SIZE_MOD → (Grid.ctor4 w h Order.WIDTH_HEIGHT val).size = w * h)) := by
  have hsize : w * h < SIZE_MOD → (h * w) % SIZE_MOD = w * h := by
    intro hfit
    rw [Nat.mul_comm h w]
    exact Nat.mod_eq_of_lt hfit
  refine ⟨⟨?_, ?_, ?_, ?_, ?_⟩, ⟨?_, ?_, ?_, ?_, ?_⟩⟩
  · simp [Grid.ctor3, Grid.width, Grid.reorderArgs]
  · simp [Grid.ctor3, Grid.height, Grid.reorderArgs]
  · simp [Grid.ctor3, Grid.rows, Grid.reorderArgs]
  · simp [Grid.ctor3, Grid.cols, Grid.reorderArgs]
  · intro hfit
    simp only [Grid.ctor3, Grid.size, Grid.reorderArgs, List.length_replicate, if_true]
    exact hsize hfit
  · simp [Grid.ctor4, Grid.width, Grid.reorderArgs]
  · simp [Grid.ctor4, Grid.height, Grid.reorderArgs]
  · simp [Grid.ctor4, Grid.rows, Grid.reorderArgs]
  · simp [Grid.ctor4, Grid.cols, Grid.reorderArgs]
  · intro hfit
    simp only [Grid.ctor4, Grid.size, Grid.reorderArgs, List.length_replicate, if_true]
    exact hsize hfit

/-- Instance of C4 (amended) with width 2 and height 3: six elements. -/
theorem Grid.ctor_width_height_dims_witness :
    2 * 3 < SIZE_MOD ∧
    (Grid.ctor3 2 3 Order.WIDTH_HEIGHT : Grid Int).size = 2 * 3 ∧
    (Grid.ctor4 2 3 Order.WIDTH_HEIGHT (9 : Int)).size = 2 * 3 ∧
    (Grid.ctor4 2 3 Order.WIDTH_HEIGHT (9 : Int)).data = [9, 9, 9, 9, 9, 9] :=
  ⟨by decide, (Grid.ctor_width_height_dims 2 3 (0 : Int)).1.2.2.2.2 (by decide),
    (Grid.ctor_width_height_dims 2 3 (9 : Int)).2.2.2.2.2 (by decide), by decide⟩

/-- Counterexample to C5 as stated: the raster grid of width 2 and height 3
with backing sequence `1, 2, 3, 4, 5, 6` has `rows() == 3`, and its row-major
reading is `"1, 2;\n3, 4;\n5, 6;\n"`, but `operator<<` writes the two lines
`"1, 3, 5;\n2, 4, 6;\n"`. -/
theorem Grid.operatorOut_width_height_not_row_major :
    exampleGridWH6.map Grid.order = some Order.WIDTH_HEIGHT ∧
    exampleGridWH6.map Grid.rows = some 3 ∧
    exampleGridWH6.map Grid.data = some [1, 2, 3, 4, 5, 6] ∧
    exampleGridWH6.bind (Grid.operatorOut showInt "") = some "1, 3, 5;\n2, 4, 6;\n" ∧
    (exampleGridWH6.bind printedLines).map List.length = some 2 ∧
    (exampleGridWH6.bind rowMajorLines).map (renderLines showInt)
      = some "1, 2;\n3, 4;\n5, 6;\n" ∧
    exampleGridWH6.bind (Grid.operatorOut showInt "")
      ≠ (exampleGridWH6.bind rowMajorLines).map (renderLines showInt) := by
  decide

/-- C5 (amended). Textual rendering is row-major over the internal rows for
every grid of order `ROWS_COLS` that satisfies the data-model invariant: the
output has exactly `rows()` lines, line `r` lists, separated by `", "`, the
backing slots `r * colCount + c` for `c = 0 .. colCount - 1`, and the elements
appear in the output in flat backing-sequence order. -/
theorem Grid.operatorOut_row_major {T : Type} (sh : T → String) (o : String) (g : Grid T)
    (hinv : g.Inv) (ho : g.order = Order.ROWS_COLS) :
    ∃ ls, rowMajorLines g = some ls ∧
      Grid.operatorOut sh o g = some (o ++ renderLines sh ls) ∧
      ls.length = g.rows ∧ (∀ l ∈ ls, l.length = g.cols) ∧ ls.flatten = g.data := by
  obtain ⟨hp, hseg⟩ := Grid.printedLines_rows_cols g hinv ho
  refine ⟨_, hseg, ?_, ?_, ?_, ?_⟩
  · rw [Grid.operatorOut_eq, hp, hseg]
    rfl
  · simp [Grid.rows]
  · intro l hl
    have hlen := mapM_some_length _ _ _ hseg
    obtain ⟨r, hr, rfl⟩ := List.mem_map.mp hl
    rw [List.mem_range] at hr
    have hle : r * g.nCols + g.nCols ≤ g.data.length := by
      rw [hinv.1]
      calc r * g.nCols + g.nCols = (r + 1) * g.nCols := by ring
        _ ≤ g.nRows * g.nCols := Nat.mul_le_mul_right g.nCols (Nat.succ_le_of_lt hr)
    simp only [List.length_take, List.length_drop, Grid.cols]
    omega
  · rw [join_segments, ← hinv.1, List.take_length]

/-- Instance of C5 (amended) on the example scenario after the write. -/
theorem Grid.operatorOut_row_major_witness :
    (exampleGrid0.store 1 5).Inv ∧ (exampleGrid0.store 1 5).order = Order.ROWS_COLS ∧
    ∃ ls, rowMajorLines (exampleGrid0.store 1 5) = some ls ∧
      Grid.operatorOut showInt "" (exampleGrid0.store 1 5)
        = some ("" ++ renderLines showInt ls) ∧
      ls.length = (exampleGrid0.store 1 5).rows ∧
      (∀ l ∈ ls, l.length = (exampleGrid0.store 1 5).cols) ∧
      ls.flatten = (exampleGrid0.store 1 5).data :=
  ⟨by decide, by decide,
    Grid.operatorOut_row_major showInt "" (exampleGrid0.store 1 5) (by decide) (by decide)⟩

/-- Counterexample to C7 as stated: the example scenario renders as
`"0, 5, 0;\n0, 0, 0;\n"`, each line ending in `";\n"`, not as
`"0, 5, 0; \n0, 0, 0; \n"` with lines ending in `"; "` and a newline. -/
theorem Grid.operatorOut_no_space_after_semicolon :
    exampleGrid5.bind (Grid.operatorOut showInt "") = some "0, 5, 0;\n0, 0, 0;\n" ∧
    (exampleGrid5.bind printedLines).map (specRenderLines showInt)
      = some "0, 5, 0; \n0, 0, 0; \n" ∧
    exampleGrid5.bind (Grid.operatorOut showInt "")
      ≠ (exampleGrid5.bind printedLines).map (specRenderLines showInt) := by
  decide

/-- C7 (amended). In the textual rendering of every grid, each line is
terminated by `";"` followed directly by a newline (no space in between), and
within a line the elements are separated by `", "`: the output is the
concatenation of the printed lines, each being its elements joined by `", "`
and followed by `";\n"`; under the data-model invariant the output is defined
and has one line per value of the outer loop variable. -/
theorem Grid.operatorOut_line_format {T : Type} (sh : T → String) (g : Grid T) :
    Grid.operatorOut sh "" g =
      (printedLines g).map
        (fun ls => String.join (ls.map (fun xs => ", ".intercalate (xs.map sh) ++ ";\n"))) ∧
    (g.Inv → ∃ ls, printedLines g = some ls ∧
      ls.length = (Grid.reorderArgs g.order g.nRows g.nCols).2.1) := by
  constructor
  · rw [Grid.operatorOut_eq]
    cases printedLines g with
    | none => rfl
    | some ls => simp [renderLines, renderLine]; rfl
  · exact Grid.printedLines_some g

/-- Instance of C7 (amended) on the raster grid with backing sequence
`0, 0, 0, 0, 0, 0`. -/
theorem Grid.operatorOut_line_format_witness :
    exampleGridWH.Inv ∧
    ∃ ls, printedLines exampleGridWH = some ls ∧
      ls.length = (Grid.reorderArgs exampleGridWH.order exampleGridWH.nRows
        exampleGridWH.nCols).2.1 :=
  ⟨by decide, (Grid.operatorOut_line_format showInt exampleGridWH).2 (by decide)⟩

/-- Counterexample to C8 as stated: in `Grid<int> g(2 ^ 32, 2 ^ 32, ROWS_COLS,
7)` the pair `(0, 0)` is valid (`0 < rows()` and `0 < cols()`), but the
backing sequence is empty and `get(0, 0)` reads outside it. -/
theorem Grid.ctor4_get_valid_outside :
    (Grid.ctor4 4294967296 4294967296 Order.ROWS_COLS (7 : Int)).Valid 0 0 ∧
    (Grid.ctor4 4294967296 4294967296 Order.ROWS_COLS (7 : Int)).data = [] ∧
    (Grid.ctor4 4294967296 4294967296 Order.ROWS_COLS (7 : Int)).get 0 0 = none ∧
    (Grid.ctor4 4294967296 4294967296 Order.ROWS_COLS (7 : Int)).get 0 0 ≠ some 7 := by
  decide

/-- C8 (amended). Fill on construction: for every `n1`, `n2`, order and value
`v`, every slot of the grid constructed with `(n1, n2, order, v)` equals `v`
when read through the flat accessor at any `i < size()`; when `n1 * n2` is a
`size_t` value, `get` at every valid pair returns `v`; and the three-argument
constructor equals the four-argument one with `v` the default value of the
element type. -/
theorem Grid.ctor_fill {T : Type} [Inhabited T] (n1 n2 : Nat) (order : Order) (v : T) :
    (∀ i, i < (Grid.ctor4 n1 n2 order v).size →
      (Grid.ctor4 n1 n2 order v).read1 i = some v) ∧
    (n1 * n2 < SIZE_MOD → ∀ i1 i2, (Grid.ctor4 n1 n2 order v).Valid i1 i2 →
      (Grid.ctor4 n1 n2 order v).get i1 i2 = some v) ∧
    (Grid.ctor3 n1 n2 order : Grid T) = Grid.ctor4 n1 n2 order default := by
  refine ⟨?_, ?_, rfl⟩
  · intro i hi
    simp only [Grid.size, Grid.ctor4, List.length_replicate] at hi
    simp [Grid.read1, Grid.operatorCall1, Grid.load, Grid.ctor4, hi]
  · intro hfit i1 i2 hv
    have hinv := Grid.ctor4_inv n1 n2 order v hfit
    obtain ⟨hmod, hlt⟩ := Grid.offset_of_valid _ i1 i2 hinv hv
    rw [(Grid.get_of_valid _ i1 i2 hinv hv).1]
    simp only [Grid.ctor4, List.length_replicate] at hlt ⊢
    rw [List.getElem?_replicate]
    simp [hlt]

/-- Instance of C8 (amended) on the raster grid of width 2 and height 3
filled with 9, read at `(1, 2)`. -/
theorem Grid.ctor_fill_witness :
    2 * 3 < SIZE_MOD ∧ (Grid.ctor4 2 3 Order.WIDTH_HEIGHT (9 : Int)).Valid 1 2 ∧
    (Grid.ctor4 2 3 Order.WIDTH_HEIGHT (9 : Int)).get 1 2 = some 9 ∧
    5 < (Grid.ctor4 2 3 Order.WIDTH_HEIGHT (9 : Int)).size ∧
    (Grid.ctor4 2 3 Order.WIDTH_HEIGHT (9 : Int)).read1 5 = some 9 :=
  ⟨by decide, by decide,
    (Grid.ctor_fill 2 3 Order.WIDTH_HEIGHT (9 : Int)).2.1 (by decide) 1 2 (by decide),
    by decide, (Grid.ctor_fill 2 3 Order.WIDTH_HEIGHT (9 : Int)).1 5 (by decide)⟩

/-- Counterexample to C9 as stated: in `Grid<int> g(2 ^ 32, 2 ^ 32, ROWS_COLS,
7)` the internal pair `(0, 0)` satisfies `0 < rowCount` and `0 < colCount`,
but the backing sequence is empty: neither accessor refers to a slot at flat
index 0, and no value can be written through one and read back through the
other. -/
theorem Grid.flat_index_valid_outside :
    0 < wrappedGridEmpty.nRows ∧ 0 < wrappedGridEmpty.nCols ∧
    wrappedGridEmpty.operatorCall1 (0 * wrappedGridEmpty.nCols + 0) = none ∧
    wrappedGridEmpty.operatorCall2 0 0 = none ∧
    (wrappedGridEmpty.write1 (0 * wrappedGridEmpty.nCols + 0) 5).isNone = true ∧
    (wrappedGridEmpty.write1 (0 * wrappedGridEmpty.nCols + 0) 5).bind
      (fun g => g.get 0 0) ≠ some 5 := by
  decide

/-- C9 (amended). Flat-index correspondence: on a grid that was constructed
with `n1 * n2 < 2 ^ 64` (and then written any number of times), for every
internal pair `(r, c)` with `r < rowCount` and
`c < colCount`, the single-argument accessor at `r * colCount + c` and the
two-argument accessor at the matching position, `(r, c)` under `ROWS_COLS` and
`(c, r)` under `WIDTH_HEIGHT`, refer to the same slot; a value written through
either is read back through the other, and through `get`. -/
theorem Grid.flat_index_correspondence {T : Type} (g : Grid T) (r c : Nat) (v : T)
    (hg : g.WellConstructed) (hr : r < g.nRows) (hc : c < g.nCols) :
    ∀ i1 i2, ((g.order = Order.ROWS_COLS ∧ i1 = r ∧ i2 = c) ∨
        (g.order = Order.WIDTH_HEIGHT ∧ i1 = c ∧ i2 = r)) →
      g.operatorCall1 (r * g.nCols + c) = some (r * g.nCols + c) ∧
      g.operatorCall2 i1 i2 = some (r * g.nCols + c) ∧
      g.read1 (r * g.nCols + c) = g.read2 i1 i2 ∧
      g.read1 (r * g.nCols + c) = g.get i1 i2 ∧
      (∃ g', g.write1 (r * g.nCols + c) v = some g' ∧
        g'.read2 i1 i2 = some v ∧ g'.get i1 i2 = some v) ∧
      (∃ g', g.write2 i1 i2 v = some g' ∧ g'.read1 (r * g.nCols + c) = some v) := by
  intro i1 i2 hpos
  have hinv := Grid.inv_of_wellConstructed g hg
  have hre : (Grid.reorderArgs g.order i1 i2).2.1 = r ∧
      (Grid.reorderArgs g.order i1 i2).2.2 = c := by
    rcases hpos with ⟨ho, rfl, rfl⟩ | ⟨ho, rfl, rfl⟩ <;> simp [Grid.reorderArgs, ho]
  have hlt : r * g.nCols + c < g.data.length := by
    rw [hinv.1]; exact Grid.slot_lt hr hc
  have hmod : (r * g.nCols + c) % SIZE_MOD = r * g.nCols + c :=
    Nat.mod_eq_of_lt (by have := hinv.2; have := hinv.1; omega)
  refine ⟨?_, ?_, ?_, ?_, ⟨g.store (r * g.nCols + c) v, ?_, ?_, ?_⟩,
    ⟨g.store (r * g.nCols + c) v, ?_, ?_⟩⟩
  · simp [Grid.operatorCall1, hlt]
  · simp [Grid.operatorCall2, hre.1, hre.2, hmod, hlt]
  · simp [Grid.read1, Grid.read2, Grid.operatorCall1, Grid.operatorCall2, hre.1, hre.2, hmod,
      hlt]
  · simp [Grid.read1, Grid.get, Grid.load, Grid.operatorCall1, hre.1, hre.2, hmod, hlt]
  · simp [Grid.write1, Grid.operatorCall1, hlt]
  · simp [Grid.read2, Grid.operatorCall2, Grid.load, Grid.store, hre.1, hre.2, hmod, hlt]
  · simp [Grid.get, Grid.store, hre.1, hre.2, hmod, hlt]
  · simp [Grid.write2, Grid.operatorCall2, hre.1, hre.2, hmod, hlt]
  · simp [Grid.read1, Grid.operatorCall1, Grid.load, Grid.store, hlt]

/-- Instance of C9 (amended) on the raster grid of width 2 and height 3: internal pair
`(2, 1)`, flat index 5, position `(1, 2)`. -/
theorem Grid.flat_index_correspondence_witness :
    exampleGridWH.WellConstructed ∧ 2 < exampleGridWH.nRows ∧ 1 < exampleGridWH.nCols ∧
    exampleGridWH.operatorCall1 (2 * exampleGridWH.nCols + 1)
      = some (2 * exampleGridWH.nCols + 1) ∧
    exampleGridWH.operatorCall2 1 2 = some (2 * exampleGridWH.nCols + 1) ∧
    exampleGridWH.read1 (2 * exampleGridWH.nCols + 1) = exampleGridWH.read2 1 2 ∧
    exampleGridWH.read1 (2 * exampleGridWH.nCols + 1) = exampleGridWH.get 1 2 ∧
    (∃ g', exampleGridWH.write1 (2 * exampleGridWH.nCols + 1) 8 = some g' ∧
      g'.read2 1 2 = some 8 ∧ g'.get 1 2 = some 8) ∧
    (∃ g', exampleGridWH.write2 1 2 8 = some g' ∧
      g'.read1 (2 * exampleGridWH.nCols + 1) = some 8) :=
  ⟨Grid.WellConstructed.ctor4 2 3 Order.WIDTH_HEIGHT 0 (by decide), by decide, by decide,
    Grid.flat_index_correspondence exampleGridWH 2 1 8
      (Grid.WellConstructed.ctor4 2 3 Order.WIDTH_HEIGHT 0 (by decide)) (by decide) (by decide)
      1 2 (Or.inr ⟨rfl, rfl, rfl⟩)⟩

/-- Counterexample to C10 as stated: in `Grid<int> g(2 ^ 32, 2 ^ 32, ROWS_COLS,
7)` the internal pair `(0, 0)` is valid, but its slot `0 * colCount + 0` is
not in `[0, size())`, because `size() == 0`: the image of the slot mapping is
not `[0, size())`. -/
theorem Grid.slot_image_not_below_size :
    0 < wrappedGridEmpty.rows ∧ 0 < wrappedGridEmpty.cols ∧ wrappedGridEmpty.size = 0 ∧
    ¬ (0 * wrappedGridEmpty.cols + 0 < wrappedGridEmpty.size) ∧
    wrappedGridEmpty.size ≠ wrappedGridEmpty.rows * wrappedGridEmpty.cols := by
  decide

/-- C10 (amended). The slot mapping is a bijection: every grid that was
constructed with `n1 * n2 < 2 ^ 64` (and then written any number of times) has
`size() == rowCount * colCount`; the map `(row, col) -> row * colCount + col`
from the valid internal pairs (`row < rowCount`, `col < colCount`) to flat
indices is injective and its image is exactly `[0, size())`; every valid pair
is resolved by `get` and by the two-argument accessor to that one slot, and
every slot is addressed by exactly one valid pair. -/
theorem Grid.slot_bijection {T : Type} (g : Grid T) (hg : g.WellConstructed) :
    g.size = g.rows * g.cols ∧
    Set.BijOn (fun p : Nat × Nat => p.1 * g.cols + p.2)
      {p | p.1 < g.rows ∧ p.2 < g.cols} {k | k < g.size} ∧
    (∀ i1 i2, g.Valid i1 i2 →
      g.operatorCall2 i1 i2 = some ((Grid.reorderArgs g.order i1 i2).2.1 * g.cols +
        (Grid.reorderArgs g.order i1 i2).2.2) ∧
      g.get i1 i2 = g.data[(Grid.reorderArgs g.order i1 i2).2.1 * g.cols +
        (Grid.reorderArgs g.order i1 i2).2.2]? ∧
      (Grid.reorderArgs g.order i1 i2).2.1 * g.cols +
        (Grid.reorderArgs g.order i1 i2).2.2 < g.size) ∧
    (∀ k, k < g.size → ∃ i1 i2, g.Valid i1 i2 ∧ g.operatorCall2 i1 i2 = some k ∧
      (∃ x, g.get i1 i2 = some x) ∧
      ∀ j1 j2, g.Valid j1 j2 → g.operatorCall2 j1 j2 = some k → j1 = i1 ∧ j2 = i2) := by
  have hinv := Grid.inv_of_wellConstructed g hg
  have hcall : ∀ i1 i2, g.Valid i1 i2 →
      g.operatorCall2 i1 i2 = some ((Grid.reorderArgs g.order i1 i2).2.1 * g.nCols +
        (Grid.reorderArgs g.order i1 i2).2.2) := by
    intro i1 i2 hv
    obtain ⟨hmod, hlt⟩ := Grid.offset_of_valid g i1 i2 hinv hv
    simp [Grid.operatorCall2, hmod, hlt]
  obtain ⟨hlen, hsz⟩ := hinv
  refine ⟨hlen, ⟨?_, ?_, ?_⟩, ?_, ?_⟩
  · intro p hp
    simp only [Set.mem_setOf_eq, Grid.size, Grid.rows, Grid.cols] at hp ⊢
    rw [hlen]
    exact Grid.slot_lt hp.1 hp.2
  · intro p hp q hq h
    simp only [Set.mem_setOf_eq, Grid.rows, Grid.cols] at hp hq h
    obtain ⟨h1, h2⟩ := Grid.slot_inj hp.2 hq.2 h
    exact Prod.ext h1 h2
  · intro k hk
    simp only [Set.mem_setOf_eq, Grid.size] at hk
    rw [hlen] at hk
    have hC : 0 < g.nCols := by
      rcases Nat.eq_zero_or_pos g.nCols with h0 | h0
      · rw [h0] at hk; simp at hk
      · exact h0
    refine ⟨(k / g.nCols, k % g.nCols), ⟨?_, Nat.mod_lt k hC⟩, ?_⟩
    · exact Nat.div_lt_of_lt_mul (by rw [Nat.mul_comm]; exact hk)
    · simp only [Grid.cols]
      exact Nat.div_add_mod' k g.nCols
  · intro i1 i2 hv
    obtain ⟨hmod, hlt⟩ := Grid.offset_of_valid g i1 i2 ⟨hlen, hsz⟩ hv
    refine ⟨hcall i1 i2 hv, ?_, hlt⟩
    exact (Grid.get_of_valid g i1 i2 ⟨hlen, hsz⟩ hv).1
  · intro k hk
    simp only [Grid.size] at hk
    rw [hlen] at hk
    have hC : 0 < g.nCols := by
      rcases Nat.eq_zero_or_pos g.nCols with h0 | h0
      · rw [h0] at hk; simp at hk
      · exact h0
    have hrow : k / g.nCols < g.nRows :=
      Nat.div_lt_of_lt_mul (by rw [Nat.mul_comm]; exact hk)
    have hcol : k % g.nCols < g.nCols := Nat.mod_lt k hC
    have hk' : k / g.nCols * g.nCols + k % g.nCols = k := Nat.div_add_mod' k g.nCols
    have hre : (Grid.reorderArgs g.order
          (Grid.reorderArgs g.order (k / g.nCols) (k % g.nCols)).2.1
          (Grid.reorderArgs g.order (k / g.nCols) (k % g.nCols)).2.2).2.1 = k / g.nCols ∧
        (Grid.reorderArgs g.order
          (Grid.reorderArgs g.order (k / g.nCols) (k % g.nCols)).2.1
          (Grid.reorderArgs g.order (k / g.nCols) (k % g.nCols)).2.2).2.2 = k % g.nCols := by
      cases g.order <;> simp [Grid.reorderArgs]
    have hv : g.Valid (Grid.reorderArgs g.order (k / g.nCols) (k % g.nCols)).2.1
        (Grid.reorderArgs g.order (k / g.nCols) (k % g.nCols)).2.2 := by
      unfold Grid.Valid
      rw [hre.1, hre.2]
      exact ⟨hrow, hcol⟩
    have hthis := hcall _ _ hv
    rw [hre.1, hre.2, hk'] at hthis
    refine ⟨_, _, hv, hthis,
      Option.isSome_iff_exists.mp (Grid.get_of_valid g _ _ ⟨hlen, hsz⟩ hv).2, ?_⟩
    intro j1 j2 hj hjk
    by_contra hne
    have hne' : (j1, j2) ≠ ((Grid.reorderArgs g.order (k / g.nCols) (k % g.nCols)).2.1,
        (Grid.reorderArgs g.order (k / g.nCols) (k % g.nCols)).2.2) := by
      intro heq
      apply hne
      exact ⟨congrArg Prod.fst heq, congrArg Prod.snd heq⟩
    have hoff := Grid.offset_ne_of_ne g j1 j2 _ _ hj hv hne'
    rw [hcall j1 j2 hj] at hjk
    rw [hre.1, hre.2, hk'] at hoff
    exact hoff (Option.some.inj hjk)

/-- Instance of C10 (amended) on the grid of the example scenario: six slots,
and slot 4 is addressed by a valid pair. -/
theorem Grid.slot_bijection_witness :
    exampleGrid0.WellConstructed ∧ exampleGrid0.size = exampleGrid0.rows * exampleGrid0.cols ∧
    Set.BijOn (fun p : Nat × Nat => p.1 * exampleGrid0.cols + p.2)
      {p | p.1 < exampleGrid0.rows ∧ p.2 < exampleGrid0.cols} {k | k < exampleGrid0.size} ∧
    4 < exampleGrid0.size ∧
    ∃ i1 i2, exampleGrid0.Valid i1 i2 ∧ exampleGrid0.operatorCall2 i1 i2 = some 4 ∧
      (∃ x, exampleGrid0.get i1 i2 = some x) ∧
      ∀ j1 j2, exampleGrid0.Valid j1 j2 → exampleGrid0.operatorCall2 j1 j2 = some 4 →
        j1 = i1 ∧ j2 = i2 :=
  ⟨Grid.WellConstructed.ctor4 2 3 Order.ROWS_COLS 0 (by decide),
    (Grid.slot_bijection exampleGrid0
      (Grid.WellConstructed.ctor4 2 3 Order.ROWS_COLS 0 (by decide))).1,
    (Grid.slot_bijection exampleGrid0
      (Grid.WellConstructed.ctor4 2 3 Order.ROWS_COLS 0 (by decide))).2.1,
    by decide,
    (Grid.slot_bijection exampleGrid0
      (Grid.WellConstructed.ctor4 2 3 Order.ROWS_COLS 0 (by decide))).2.2.2 4 (by decide)⟩

/-- Counterexample to C11 as stated: in `Grid<int> g(2 ^ 32, 2 ^ 32, ROWS_COLS,
7)` the pair `(0, 0)` meets the documented precondition (`0 < rowCount` and
`0 < colCount`), but its flat offset 0 is not below `size() == 0`: the access
of `get(0, 0)` leaves the backing sequence. -/
theorem Grid.index_valid_not_below_size :
    wrappedGridEmpty.Valid 0 0 ∧ wrappedGridEmpty.size = 0 ∧
    ¬ (((Grid.reorderArgs wrappedGridEmpty.order 0 0).2.1 * wrappedGridEmpty.nCols +
        (Grid.reorderArgs wrappedGridEmpty.order 0 0).2.2) % SIZE_MOD
      < wrappedGridEmpty.size) ∧
    wrappedGridEmpty.get 0 0 = none ∧ wrappedGridEmpty.operatorCall2 0 0 = none := by
  decide

/-- C11 (amended). Index safety under the documented precondition: on a grid
of either order that was constructed with `n1 * n2 < 2 ^ 64` (and then written
any number of times), for every `(i1, i2)` whose
values after the swap satisfy `i1 < rowCount` and `i2 < colCount`, the flat
offset computed by `get` and by the mutable two-argument accessor is the same
number, is not reduced by `size_t` wrap-around, and is strictly below
`size()`; so neither access leaves the backing sequence. -/
theorem Grid.index_safety {T : Type} (g : Grid T) (i1 i2 : Nat)
    (hg : g.WellConstructed) (hv : g.Valid i1 i2) :
    ((Grid.reorderArgs g.order i1 i2).2.1 * g.nCols + (Grid.reorderArgs g.order i1 i2).2.2)
        % SIZE_MOD < g.size ∧
    g.operatorCall2 i1 i2 =
      some ((Grid.reorderArgs g.order i1 i2).2.1 * g.nCols +
        (Grid.reorderArgs g.order i1 i2).2.2) ∧
    (∃ x, g.get i1 i2 = some x) ∧ g.get i1 i2 ≠ none ∧ g.operatorCall2 i1 i2 ≠ none := by
  have hinv := Grid.inv_of_wellConstructed g hg
  obtain ⟨hmod, hlt⟩ := Grid.offset_of_valid g i1 i2 hinv hv
  have hcall : g.operatorCall2 i1 i2 =
      some ((Grid.reorderArgs g.order i1 i2).2.1 * g.nCols +
        (Grid.reorderArgs g.order i1 i2).2.2) := by
    simp [Grid.operatorCall2, hmod, hlt]
  have hget := Option.isSome_iff_exists.mp (Grid.get_of_valid g i1 i2 hinv hv).2
  refine ⟨?_, hcall, hget, ?_, ?_⟩
  · rw [hmod]; exact hlt
  · obtain ⟨x, hx⟩ := hget
    rw [hx]; exact Option.some_ne_none x
  · rw [hcall]; exact Option.some_ne_none _

/-- Instance of C11 (amended) on the raster grid of width 2 and height 3 at `(1, 2)`. -/
theorem Grid.index_safety_witness :
    exampleGridWH.WellConstructed ∧ exampleGridWH.Valid 1 2 ∧
    ((Grid.reorderArgs exampleGridWH.order 1 2).2.1 * exampleGridWH.nCols +
      (Grid.reorderArgs exampleGridWH.order 1 2).2.2) % SIZE_MOD < exampleGridWH.size :=
  ⟨Grid.WellConstructed.ctor4 2 3 Order.WIDTH_HEIGHT 0 (by decide), by decide,
    (Grid.index_safety exampleGridWH 1 2
      (Grid.WellConstructed.ctor4 2 3 Order.WIDTH_HEIGHT 0 (by decide)) (by decide)).1⟩

/-- C12. The accessor `get` and the mutable two-argument accessor address the
identical slot: for every grid state, either order and every `(i1, i2)`, valid
or not, the reference returned by the mutable accessor refers to the slot at
the offset that `get` reads (both apply the swap of `reorderArgs` and compute
`i1 * nCols + i2`), so reading through the mutable accessor returns the same
element as `get(i1, i2)`. -/
theorem Grid.get_eq_read2 {T : Type} (g : Grid T) (i1 i2 : Nat) :
    g.read2 i1 i2 = g.get i1 i2 ∧
    (∀ k, g.operatorCall2 i1 i2 = some k →
      k = ((Grid.reorderArgs g.order i1 i2).2.1 * g.nCols +
        (Grid.reorderArgs g.order i1 i2).2.2) % SIZE_MOD ∧ g.get i1 i2 = g.data[k]?) ∧
    (g.operatorCall2 i1 i2 = none ↔ g.get i1 i2 = none) := by
  refine ⟨?_, ?_, ?_⟩
  · unfold Grid.read2 Grid.operatorCall2 Grid.get Grid.load
    simp only []
    split
    · rfl
    · next h => simp [List.getElem?_eq_none (Nat.le_of_not_lt h)]
  · intro k hk
    unfold Grid.operatorCall2 at hk
    simp only [] at hk
    split at hk
    · cases hk
      exact ⟨rfl, rfl⟩
    · cases hk
  · unfold Grid.operatorCall2 Grid.get
    simp only []
    split
    · next h => simp [h]
    · next h => simp [List.getElem?_eq_none (Nat.le_of_not_lt h)]

/-- Instance of C12 on the raster grid: slot 5 is referred to at `(1, 2)`. -/
theorem Grid.get_eq_read2_witness :
    exampleGridWH.operatorCall2 1 2 = some 5 ∧
    5 = ((Grid.reorderArgs exampleGridWH.order 1 2).2.1 * exampleGridWH.nCols +
      (Grid.reorderArgs exampleGridWH.order 1 2).2.2) % SIZE_MOD ∧
    exampleGridWH.get 1 2 = exampleGridWH.data[5]? :=
  ⟨by decide, (Grid.get_eq_read2 exampleGridWH 1 2).2.1 5 (by decide)⟩

/-- C13. Threshold contract of `logMsg`: for every message `m`, level,
terminator character `e` and flush flag, with configured threshold `T`,
`logMsg` writes nothing to standard output if `T < level`, and writes exactly
`m` followed by `e` if `T >= level` (the default terminator being the
newline); the characters written do not depend on the flush flag. -/
theorem logMsg_threshold (T : Int) (m : String) (level : Int) (e : Char) (flush : Bool)
    (cout : Cout) :
    (T < level → logMsg T m level e flush cout = cout) ∧
    (T ≥ level →
      (logMsg T m level e flush cout).written = cout.written ++ m ++ String.singleton e) ∧
    (T ≥ level → (logMsgDefault T m level cout).written = cout.written ++ m ++ "\n") ∧
    (∀ flush2 : Bool,
      (logMsg T m level e flush cout).written = (logMsg T m level e flush2 cout).written) := by
  refine ⟨?_, ?_, ?_, ?_⟩
  · intro h
    have : ¬ T ≥ level := by omega
    simp [logMsg, this]
  · intro h
    cases flush <;> simp [logMsg, h]
  · intro h
    simp [logMsgDefault, logMsg, h]
    rfl
  · intro flush2
    by_cases h : T ≥ level
    · cases flush <;> cases flush2 <;> simp [logMsg, h]
    · simp [logMsg, h]

/-- Instance of C13: threshold 2; a message of level 3 is dropped, the
message `"x"` of level 1 is written as `"x\n"`. -/
theorem logMsg_threshold_witness :
    ((2 : Int) < 3 ∧ logMsg 2 "x" 3 (Char.ofNat 10) true ⟨"", 0⟩ = ⟨"", 0⟩) ∧
    ((2 : Int) ≥ 1 ∧ (logMsg 2 "x" 1 (Char.ofNat 10) true ⟨"", 0⟩).written
      = "" ++ "x" ++ String.singleton (Char.ofNat 10)) ∧
    (logMsgDefault 2 "x" 1 ⟨"", 0⟩).written = "x\n" :=
  ⟨⟨by decide, (logMsg_threshold 2 "x" 3 (Char.ofNat 10) true ⟨"", 0⟩).1 (by decide)⟩,
    ⟨by decide, (logMsg_threshold 2 "x" 1 (Char.ofNat 10) true ⟨"", 0⟩).2.1 (by decide)⟩,
    by decide⟩

/-- Counterexample to C14 as stated: with threshold 1, a message of level 2
is at or above the threshold, and `logMsg` writes nothing. -/
theorem logMsg_level_above_threshold_dropped :
    (2 : Int) ≥ 1 ∧ logMsgDefault 1 "x" 2 ⟨"", 0⟩ = ⟨"", 0⟩ ∧
    (logMsgDefault 1 "x" 2 ⟨"", 0⟩).written ≠ "x\n" := by
  decide

/-- C14 (amended). Log threshold semantics: with configured threshold `T`, a
message is emitted by `logMsg` exactly when its level is at or below `T`
(`level <= T`); a message whose level is above `T` leaves standard output
unchanged. -/
theorem logMsg_emits_iff (T : Int) (m : String) (level : Int) (e : Char) (flush : Bool)
    (cout : Cout) :
    (level ≤ T ↔
      (logMsg T m level e flush cout).written = cout.written ++ m ++ String.singleton e) ∧
    (T < level ↔ (logMsg T m level e flush cout).written = cout.written) := by
  have hlen : (cout.written ++ m ++ String.singleton e).length
      = cout.written.length + m.length + 1 := by
    simp [String.length_append, String.singleton]
  have hne : cout.written ++ m ++ String.singleton e ≠ cout.written := by
    intro h
    have := congrArg String.length h
    rw [hlen] at this
    omega
  by_cases h : T ≥ level
  · have hw : (logMsg T m level e flush cout).written
        = cout.written ++ m ++ String.singleton e := by
      cases flush <;> simp [logMsg, h]
    refine ⟨⟨fun _ => hw, fun _ => h⟩, ⟨fun h2 => absurd h (by omega), fun h2 => ?_⟩⟩
    rw [hw] at h2
    exact absurd h2 hne
  · have hw : (logMsg T m level e flush cout).written = cout.written := by
      simp [logMsg, h]
    refine ⟨⟨fun h2 => absurd h2 (by omega), fun h2 => ?_⟩, ⟨fun _ => hw, fun _ => by omega⟩⟩
    rw [hw] at h2
    exact absurd h2.symm hne

/-- Instance of C14 (amended): with threshold 2 the message `"x"` of level 1
is emitted. -/
theorem logMsg_emits_iff_witness :
    (1 : Int) ≤ 2 ∧
    (logMsg 2 "x" 1 (Char.ofNat 10) false ⟨"", 0⟩).written
      = "" ++ "x" ++ String.singleton (Char.ofNat 10) :=
  ⟨by decide, (logMsg_emits_iff 2 "x" 1 (Char.ofNat 10) false ⟨"", 0⟩).1.mp (by decide)⟩

/-- C15. Reproducible seeding: when the fixed-seed flag `USE_PSEUDORAND` is
true, the engine of the constructed random source is in its
default-constructed state whatever value the entropy source would yield, so
two constructions with different entropy values have the same engine state
and draw the same sequence; when the flag is false the engine is seeded with
the value of the entropy source. -/
theorem RandomDevice.ctor_seeding {E : Type} (defaultEngine : E) (seed : E → Nat → E)
    (next : E → Nat × E) (d1 d2 n : Nat) :
    (RandomDevice.ctor true defaultEngine seed d1).engine = defaultEngine ∧
    (RandomDevice.ctor true defaultEngine seed d1).engine
      = (RandomDevice.ctor true defaultEngine seed d2).engine ∧
    drawSequence next n (RandomDevice.ctor true defaultEngine seed d1).engine
      = drawSequence next n (RandomDevice.ctor true defaultEngine seed d2).engine ∧
    (RandomDevice.ctor false defaultEngine seed d1).engine = seed defaultEngine d1 := by
  simp [RandomDevice.ctor]

/-- Counterexample to C16 as stated: in `Grid<int> g(2 ^ 32, 2 ^ 32,
ROWS_COLS, 7)` both loop bounds of `operator<<` are positive and the first
read `get(0, 0)` resolves to the internal pair `(0, 0)` with `0 < rowCount`
and `0 < colCount`, but its flat offset 0 is not below `size() == 0`: the
rendering reads outside the backing sequence. -/
theorem Grid.operatorOut_first_read_outside :
    0 < (Grid.reorderArgs wrappedGridEmpty.order wrappedGridEmpty.nRows
      wrappedGridEmpty.nCols).2.1 ∧
    0 < (Grid.reorderArgs wrappedGridEmpty.order wrappedGridEmpty.nRows
      wrappedGridEmpty.nCols).2.2 ∧
    (Grid.reorderArgs wrappedGridEmpty.order 0 0).2.1 < wrappedGridEmpty.rows ∧
    (Grid.reorderArgs wrappedGridEmpty.order 0 0).2.2 < wrappedGridEmpty.cols ∧
    ¬ (((Grid.reorderArgs wrappedGridEmpty.order 0 0).2.1 * wrappedGridEmpty.nCols +
        (Grid.reorderArgs wrappedGridEmpty.order 0 0).2.2) % SIZE_MOD
      < wrappedGridEmpty.size) ∧
    wrappedGridEmpty.get 0 0 = none ∧
    Grid.operatorOut showInt "" wrappedGridEmpty = none :=
  ⟨by decide, by decide, by decide, by decide, by decide, by decide,
    Grid.operatorOut_none_of_first_read showInt "" wrappedGridEmpty (by decide) (by decide)
      (by decide)⟩

/-- C16 (amended). Rendering never indexes out of bounds: for every grid of
either order (zero rows or zero columns included), every call `get(r, c)` made
by the loops of `operator<<` resolves, after the swap of `get`, to an internal
pair with `row < rowCount` and `col < colCount`; hence, on a grid that was
constructed with `n1 * n2 < 2 ^ 64` (and then written any number of times), to
a flat offset below `size()`, and the whole rendering is defined. -/
theorem Grid.operatorOut_reads_in_bounds {T : Type} (g : Grid T) :
    (∀ r c, r < (Grid.reorderArgs g.order g.nRows g.nCols).2.1 →
      c < (Grid.reorderArgs g.order g.nRows g.nCols).2.2 →
      (Grid.reorderArgs g.order r c).2.1 < g.rows ∧
      (Grid.reorderArgs g.order r c).2.2 < g.cols ∧
      (g.WellConstructed →
        ((Grid.reorderArgs g.order r c).2.1 * g.nCols + (Grid.reorderArgs g.order r c).2.2)
          % SIZE_MOD < g.size ∧
        ∃ x, g.get r c = some x)) ∧
    (g.WellConstructed →
      ∀ (sh : T → String) (o : String), ∃ s, Grid.operatorOut sh o g = some s) := by
  constructor
  · intro r c hr hc
    have hv := Grid.valid_of_loop g r c hr hc
    refine ⟨hv.1, hv.2, fun hg => ?_⟩
    have hinv := Grid.inv_of_wellConstructed g hg
    obtain ⟨hmod, hlt⟩ := Grid.offset_of_valid g r c hinv hv
    refine ⟨by rw [hmod]; exact hlt, ?_⟩
    exact Option.isSome_iff_exists.mp (Grid.get_of_valid g r c hinv hv).2
  · intro hg sh o
    obtain ⟨ls, hls, _⟩ := Grid.printedLines_some g (Grid.inv_of_wellConstructed g hg)
    exact ⟨o ++ renderLines sh ls, by rw [Grid.operatorOut_eq, hls]; rfl⟩

/-- Instance of C16 (amended) on the raster grid of width 2 and height 3: the
read `get(1, 2)` of the loops, and the rendering as a whole. -/
theorem Grid.operatorOut_reads_in_bounds_witness :
    (1 < (Grid.reorderArgs exampleGridWH.order exampleGridWH.nRows exampleGridWH.nCols).2.1 ∧
      2 < (Grid.reorderArgs exampleGridWH.order exampleGridWH.nRows exampleGridWH.nCols).2.2 ∧
      (Grid.reorderArgs exampleGridWH.order 1 2).2.1 < exampleGridWH.rows ∧
      (Grid.reorderArgs exampleGridWH.order 1 2).2.2 < exampleGridWH.cols) ∧
    exampleGridWH.WellConstructed ∧
    (((Grid.reorderArgs exampleGridWH.order 1 2).2.1 * exampleGridWH.nCols +
        (Grid.reorderArgs exampleGridWH.order 1 2).2.2) % SIZE_MOD < exampleGridWH.size ∧
      ∃ x, exampleGridWH.get 1 2 = some x) ∧
    ∃ s, Grid.operatorOut showInt "" exampleGridWH = some s :=
  ⟨⟨by decide, by decide,
      ((Grid.operatorOut_reads_in_bounds exampleGridWH).1 1 2 (by decide) (by decide)).1,
      ((Grid.operatorOut_reads_in_bounds exampleGridWH).1 1 2 (by decide) (by decide)).2.1⟩,
    Grid.WellConstructed.ctor4 2 3 Order.WIDTH_HEIGHT 0 (by decide),
    ((Grid.operatorOut_reads_in_bounds exampleGridWH).1 1 2 (by decide) (by decide)).2.2
      (Grid.WellConstructed.ctor4 2 3 Order.WIDTH_HEIGHT 0 (by decide)),
    (Grid.operatorOut_reads_in_bounds exampleGridWH).2
      (Grid.WellConstructed.ctor4 2 3 Order.WIDTH_HEIGHT 0 (by decide)) showInt ""⟩

/-- Counterexample to C17 as stated: `Grid<int> g(2 ^ 32, 2 ^ 32, ROWS_COLS,
7)` is a grid constructed with `(n1, n2, order)`, `n1 = n2 = 2 ^ 32`, and its
rendering does not consist of `n1` lines: the first read `get(0, 0)` is
outside the empty backing sequence, so no output is defined. -/
theorem Grid.operatorOut_constructed_undefined :
    wrappedGridEmpty.ConstructedWith 4294967296 4294967296 Order.ROWS_COLS ∧
    wrappedGridEmpty.get 0 0 = none ∧
    Grid.operatorOut showInt "" wrappedGridEmpty = none ∧
    ¬ ∃ ls : List (List Int), Grid.operatorOut showInt "" wrappedGridEmpty =
        some (String.join (ls.map (fun xs => ", ".intercalate (xs.map showInt) ++ ";\n"))) ∧
      ls.length = 4294967296 := by
  have hnone : Grid.operatorOut showInt "" wrappedGridEmpty = none :=
    Grid.operatorOut_none_of_first_read showInt "" wrappedGridEmpty (by decide) (by decide)
      (by decide)
  refine ⟨by decide, by decide, hnone, ?_⟩
  rintro ⟨ls, hls, _⟩
  rw [hnone] at hls
  cases hls

/-- C17 (amended). Rendering in convention terms: for every grid constructed
with `(n1, n2, order)` where `n1 * n2 < 2 ^ 64` (and then written any number
of times), the rendering
consists of exactly `n1` lines, and line `i` is `get(i, 0), ..., get(i, n2-1)`
joined by `", "` and followed by `";\n"`.  In particular a `WIDTH_HEIGHT` grid
of width `w = n1` and height `h = n2` renders `w` lines of `h` elements each,
line `x` listing the backing slots `y * colCount + x` for `y = 0 .. h-1`, and a
grid with `n1 == 0` renders the empty string. -/
theorem Grid.operatorOut_convention {T : Type} (sh : T → String) (g : Grid T)
    (n1 n2 : Nat) (order : Order) (hs : g.ConstructedWith n1 n2 order)
    (hg : g.WellConstructed) :
    ∃ ls, (List.range n1).mapM (fun i => (List.range n2).mapM (fun j => g.get i j)) = some ls ∧
      Grid.operatorOut sh "" g =
        some (String.join (ls.map (fun xs => ", ".intercalate (xs.map sh) ++ ";\n"))) ∧
      ls.length = n1 ∧ (∀ l ∈ ls, l.length = n2) ∧
      (order = Order.WIDTH_HEIGHT → g.width = n1 ∧ g.height = n2 ∧
        ∀ x y, x < n1 → y < n2 →
          g.get x y = g.data[y * g.cols + x]? ∧ y * g.cols + x < g.size) ∧
      (n1 = 0 → Grid.operatorOut sh "" g = some "") := by
  have hinv := Grid.inv_of_wellConstructed g hg
  obtain ⟨hb1, hb2⟩ := Grid.loop_bounds_of_constructedWith g n1 n2 order hs
  obtain ⟨ls, hls, hlen⟩ := Grid.printedLines_some g hinv
  have hout : Grid.operatorOut sh "" g =
      some (String.join (ls.map (fun xs => ", ".intercalate (xs.map sh) ++ ";\n"))) := by
    rw [Grid.operatorOut_eq, hls]
    simp [renderLines, renderLine]
    rfl
  unfold printedLines at hls
  rw [hb1, hb2] at hls
  rw [hb1] at hlen
  refine ⟨ls, hls, hout, hlen, ?_, ?_, ?_⟩
  · intro l hl
    obtain ⟨i, _, hi⟩ := mapM_some_mem _ _ _ hls l hl
    simpa using mapM_some_length _ _ _ hi
  · intro ho
    obtain ⟨hord, hr, hc⟩ := hs
    subst ho
    simp only [Grid.reorderArgs_width_height] at hr hc
    refine ⟨hc, hr, ?_⟩
    intro x y hx hy
    have hv : g.Valid x y := by
      simp [Grid.Valid, hord, Grid.reorderArgs_width_height, hr, hc, hx, hy]
    have hget := (Grid.get_of_valid g x y hinv hv).1
    simp only [hord, Grid.reorderArgs_width_height] at hget
    refine ⟨by simpa [Grid.cols] using hget, ?_⟩
    simp only [Grid.cols, Grid.size]
    rw [hinv.1]
    exact Grid.slot_lt (by omega) (by omega)
  · intro h0
    subst h0
    have hnil : ls = [] := List.length_eq_zero.mp hlen
    rw [hout, hnil]
    rfl

/-- Instance of C17 (amended) on the raster grid of width 2 and height 3. -/
theorem Grid.operatorOut_convention_witness :
    exampleGridWH.ConstructedWith 2 3 Order.WIDTH_HEIGHT ∧ exampleGridWH.WellConstructed ∧
    ∃ ls, (List.range 2).mapM
        (fun i => (List.range 3).mapM (fun j => exampleGridWH.get i j)) = some ls ∧
      Grid.operatorOut showInt "" exampleGridWH =
        some (String.join (ls.map (fun xs => ", ".intercalate (xs.map showInt) ++ ";\n"))) ∧
      ls.length = 2 ∧ (∀ l ∈ ls, l.length = 3) ∧
      (Order.WIDTH_HEIGHT = Order.WIDTH_HEIGHT →
        exampleGridWH.width = 2 ∧ exampleGridWH.height = 3 ∧
        ∀ x y, x < 2 → y < 3 →
          exampleGridWH.get x y = exampleGridWH.data[y * exampleGridWH.cols + x]? ∧
            y * exampleGridWH.cols + x < exampleGridWH.size) ∧
      ((2 : Nat) = 0 → Grid.operatorOut showInt "" exampleGridWH = some "") :=
  ⟨by decide, Grid.WellConstructed.ctor4 2 3 Order.WIDTH_HEIGHT 0 (by decide),
    Grid.operatorOut_convention showInt exampleGridWH 2 3 Order.WIDTH_HEIGHT (by decide)
      (Grid.WellConstructed.ctor4 2 3 Order.WIDTH_HEIGHT 0 (by decide))⟩

